import Mathlib

/-!
Verification development for the DocumentQA repository.

The core under verification is `documents/services/retriever.py`
(`DocumentRetriever`: `index_documents`, `find_relevant`,
`find_relevant_documents`, `clear_index`, `is_indexed`, `document_count`)
and `documents/services/qa_chain.py` (`QAChainService.generate_answer`).

Modelling conventions:

* The Django record store (`Document.objects`) is an explicit argument
  `store : Store`, a list of `(id, title, content)` rows in queryset order.
  Object-level mutable state of `DocumentRetriever` is the record
  `RetrieverState`, threaded explicitly; Python exceptions are `Except`.
* scikit-learn's `TfidfVectorizer(stop_words='english', max_features=10000,
  ngram_range=(1, 2))` is an external collaborator; it is modelled here at
  the level the spec describes it: lower-casing, tokenizing on runs of at
  least two word characters, dropping a fixed English stop-word list,
  unigram+bigram features, per-term weight tf * idf, and the
  "empty vocabulary" ValueError when no document yields any feature.
  `stopWords` below is the sublist of scikit-learn's frozen
  ENGLISH_STOP_WORDS that matters for the concrete corpora considered.
* scikit-learn's smoothed idf is ln((1+N)/(1+df)) + 1, an irrational real.
  The development is therefore parametric in `idfW : N -> df -> weight`
  (every theorem quantifies over it); the concrete instance `idfOne`
  (constant 1) is *exactly* the real idf whenever df = N, i.e. whenever
  every vocabulary term occurs in every document, which holds in every
  concrete corpus used in a witness or counterexample below.
* Floating point is modelled by exact rational arithmetic.  Cosine
  similarities of nonnegative tf-idf vectors lie in [0,1] and are compared
  by their *squares*, which are rational: `cosSq q d` is the square of the
  cosine similarity, squaring being an order isomorphism of [0,1].  The
  `score >= min_score` test of the code is rendered by `passesMin`, which
  is the exact squared translation of that comparison (`min_score <= 0`
  always passes because scores are nonnegative; for `min_score > 0` the
  test is `min_score^2 <= cosSq`).  Row L2-normalisation by the vectorizer
  is omitted: `cosine_similarity` renormalises, so cosine values are
  unchanged.
* `np.argsort(similarities)` is modelled as the stable ascending argsort,
  i.e. sorting indices by the lexicographic key (score, index); NumPy's
  default kind is deterministic and coincides with the stable sort on the
  small-array regime (its quicksort is plain insertion sort below 17
  elements).  The code then reverses (`[::-1]`) and truncates (`[:top_k]`).
* In unreachable states whose parallel arrays disagree in length, list
  accesses `xs[i]` are modelled `xs.getD i default`; every state the code
  actually constructs keeps the arrays parallel.
-/

attribute [local semireducible] Rat.mul Rat.add Rat.sub Rat.inv

/-- Lexicographic byte-order strict comparison on character lists,
matching Python string `<` for the ASCII corpora considered. -/
def strLtL : List Char → List Char → Bool
  | [], [] => false
  | [], _ :: _ => true
  | _ :: _, [] => false
  | a :: as, b :: bs => if a < b then true else if b < a then false else strLtL as bs

/-- `a <= b` on strings, via `strLtL`. -/
def strLe (a b : String) : Prop := strLtL b.data a.data = false

instance : DecidableRel strLe := fun a b => by unfold strLe; infer_instance

/-- A character counts for `\w` in the token pattern `\b\w\w+\b`. -/
def isWordChar (c : Char) : Bool := c.isAlphanum || c = '_'

/-- Emit the accumulated (reversed) run as a token if it has length >= 2,
as in scikit-learn's default `token_pattern=r"(?u)\b\w\w+\b"`. -/
def flushTok (acc : List Char) : List String :=
  if 2 ≤ acc.length then [String.mk acc.reverse] else []

/-- Scan characters, collecting maximal runs of word characters. -/
def tokenizeAux : List Char → List Char → List String
  | [], acc => flushTok acc
  | c :: cs, acc =>
    if isWordChar c then tokenizeAux cs (c :: acc)
    else flushTok acc ++ tokenizeAux cs []

/-- ASCII lower-casing of one character, the effect of `str.lower()` on
the ASCII corpora considered. -/
def lowerChar (c : Char) : Char :=
  if 'A' ≤ c ∧ c ≤ 'Z' then Char.ofNat (c.toNat + 32) else c

/-- scikit-learn's default analyzer preprocessing: lower-case, then take
maximal runs of at least two word characters. -/
def tokenize (text : String) : List String :=
  tokenizeAux (text.data.map lowerChar) []

/-- The members of scikit-learn's frozen ENGLISH_STOP_WORDS relevant to the
corpora in this development (the full list has 318 entries; terms outside
this sublist never occur in the concrete inputs below). -/
def stopWords : List String :=
  ["a", "an", "and", "are", "as", "at", "be", "by", "for", "from", "has",
   "he", "in", "is", "it", "its", "of", "on", "that", "the", "to", "was",
   "were", "will", "with", "this"]

/-- Tokens of a text with stop words removed (scikit-learn removes stop
words before building n-grams). -/
def terms (text : String) : List String :=
  (tokenize text).filter (fun t => !(stopWords.contains t))

/-- Adjacent-pair bigrams, joined by a space as scikit-learn does. -/
def bigrams : List String → List String
  | a :: b :: rest => (a ++ " " ++ b) :: bigrams (b :: rest)
  | _ => []

/-- Feature sequence of one document under `ngram_range=(1, 2)`:
unigrams followed by bigrams of the stop-word-filtered token list. -/
def features (text : String) : List String := terms text ++ bigrams (terms text)

/-- Occurrences of `t` in `l` (raw term frequency). -/
def countIn (l : List String) (t : String) : ℕ := (l.filter (fun x => x = t)).length

/-- Document frequency of term `t` in the corpus. -/
def dfCount (contents : List String) (t : String) : ℕ :=
  (contents.filter (fun c => (features c).contains t)).length

/-- The fitted vocabulary: distinct features, alphabetically sorted (as
scikit-learn numbers its vocabulary); when more than `max_features=10000`
are found, only the 10000 with highest corpus frequency are retained. -/
def vocabOf (contents : List String) : List String :=
  let distinct := ((contents.map features).flatten).dedup
  let sorted := List.insertionSort strLe distinct
  if sorted.length ≤ 10000 then sorted
  else
    let byFreq := List.insertionSort
      (fun a b => countIn (contents.map features).flatten b ≤ countIn (contents.map features).flatten a)
      sorted
    List.insertionSort strLe (byFreq.take 10000)

/-- The fitted vectorizer: vocabulary plus the learned idf weight of each
vocabulary term (parallel lists). -/
structure FittedModel where
  vocab : List String
  idfs : List ℚ
deriving DecidableEq

/-- Raw tf-idf vector of a text over a fitted (vocab, idf) space; terms
outside the vocabulary contribute nothing.  Row L2-normalisation is
omitted (cosine similarity is scale-invariant and `cosine_similarity`
renormalises anyway). -/
def tfidfVec (vocab : List String) (idfs : List ℚ) (text : String) : List ℚ :=
  (vocab.zip idfs).map (fun p => (countIn (features text) p.1 : ℚ) * p.2)

/-- The message of scikit-learn's empty-vocabulary ValueError. -/
def emptyVocabMsg : String :=
  "empty vocabulary; perhaps the documents only contain stop words"

/-- Model of `TfidfVectorizer.fit_transform`, parametric in the idf weight
function `idfW N df`; raises scikit-learn's ValueError when the corpus
yields no vocabulary (e.g. every document is only stop words). -/
def fitTransform (idfW : ℕ → ℕ → ℚ) (contents : List String) :
    Except String (FittedModel × List (List ℚ)) :=
  let vocab := vocabOf contents
  if vocab.isEmpty then
    Except.error emptyVocabMsg
  else
    let idfs := vocab.map (fun t => idfW contents.length (dfCount contents t))
    Except.ok (⟨vocab, idfs⟩, contents.map (fun c => tfidfVec vocab idfs c))

/-- Model of `TfidfVectorizer.transform` on one query string, in the
already-fitted space. -/
def transform (fm : FittedModel) (text : String) : List ℚ :=
  tfidfVec fm.vocab fm.idfs text

/-- Dot product of two dense rational vectors (over the common length). -/
def dot (v w : List ℚ) : ℚ := ((v.zip w).map (fun p => p.1 * p.2)).sum

/-- Squared L2 norm. -/
def normSq (v : List ℚ) : ℚ := dot v v

/-- Squared cosine similarity, with scikit-learn's zero-vector convention
(`normalize` leaves all-zero rows untouched, so a zero query or document
scores 0 everywhere).  For the nonnegative tf-idf vectors the code
produces, the actual cosine score is the square root of this value. -/
def cosSq (q d : List ℚ) : ℚ :=
  let n := dot q d
  if n = 0 then 0 else n ^ 2 / (normSq q * normSq d)

/-- Score of ordinal `i` in the similarity vector (0 out of range). -/
def sGet (s : List ℚ) (i : ℕ) : ℚ := s.getD i 0

/-- The comparison key of the stable ascending argsort: sort indices by
(score, original index) lexicographically. -/
def lexLe (s : List ℚ) (a b : ℕ) : Prop :=
  sGet s a < sGet s b ∨ (sGet s a = sGet s b ∧ a ≤ b)

instance : (s : List ℚ) → DecidableRel (lexLe s) := fun s a b => by
  unfold lexLe; infer_instance

instance (s : List ℚ) : IsTotal ℕ (lexLe s) where
  total a b := by
    unfold lexLe
    rcases lt_trichotomy (sGet s a) (sGet s b) with h | h | h
    · exact Or.inl (Or.inl h)
    · rcases Nat.le_total a b with hab | hab
      · exact Or.inl (Or.inr ⟨h, hab⟩)
      · exact Or.inr (Or.inr ⟨h.symm, hab⟩)
    · exact Or.inr (Or.inl h)

instance (s : List ℚ) : IsTrans ℕ (lexLe s) where
  trans a b c hab hbc := by
    unfold lexLe at *
    rcases hab with h1 | ⟨h1, h1'⟩ <;> rcases hbc with h2 | ⟨h2, h2'⟩
    · exact Or.inl (h1.trans h2)
    · exact Or.inl (h2 ▸ h1)
    · exact Or.inl (h1 ▸ h2)
    · exact Or.inr ⟨h1.trans h2, h1'.trans h2'⟩

/-- Stable ascending argsort of a similarity vector:
model of `np.argsort(similarities)`. -/
def argsortAsc (s : List ℚ) : List ℕ :=
  List.insertionSort (lexLe s) (List.range s.length)

/-- The ranking step of `find_relevant`:
`np.argsort(similarities)[::-1]`, the full descending ranking. -/
def rankDesc (s : List ℚ) : List ℕ := (argsortAsc s).reverse

/-- The `score >= min_score` test of `find_relevant`, expressed on squared
scores: a nonpositive threshold passes everything (scores are
nonnegative), a positive threshold `m` passes squared score `sq` exactly
when `m^2 <= sq`. -/
def passesMin (m sq : ℚ) : Bool := if m ≤ 0 then true else decide (m ^ 2 ≤ sq)

/-- `documents.services.retriever.RetrievalResult`; `score` holds the
squared cosine similarity (see the header). -/
structure RetrievalResult where
  document_id : ℕ
  title : String
  score : ℚ
  content_preview : String
deriving DecidableEq

/-- The record store: `(id, title, content)` rows in queryset order. -/
abbrev Store := List (ℕ × String × String)

/-- Mutable state of a `DocumentRetriever` instance.  `vectorizer` is
`none` when `self._vectorizer is None`, `some none` when a constructed
but unfitted `TfidfVectorizer` is held (as after a failed fit), and
`some (some fm)` when fitted. -/
structure RetrieverState where
  vectorizer : Option (Option FittedModel)
  matrix : Option (List (List ℚ))
  document_ids : List ℕ
  document_titles : List String
  document_previews : List String
  is_indexed : Bool
deriving DecidableEq

/-- The state `DocumentRetriever.__init__` produces, which is also the
state after `clear_index` and after indexing an empty corpus. -/
def emptyState : RetrieverState :=
  { vectorizer := none, matrix := none, document_ids := [],
    document_titles := [], document_previews := [], is_indexed := false }

/-- `content[:200] + '...' if len(content) > 200 else content`. -/
def previewOf (content : String) : String :=
  if 200 < content.length then content.take 200 ++ "..." else content

/-- `DocumentRetriever.index_documents`: full rebuild from the store.  On
an empty corpus it resets to `emptyState` and returns 0.  Otherwise the
parallel arrays are repopulated and a fresh vectorizer object is installed
*before* fitting, exactly as in the source; if `fit_transform` raises, the
exception propagates with the arrays already overwritten, the new
vectorizer unfitted, and `matrix`/`is_indexed` still holding their
previous values. -/
def index_documents (idfW : ℕ → ℕ → ℚ) (store : Store) (st : RetrieverState) :
    Except String ℕ × RetrieverState :=
  if store.isEmpty then (Except.ok 0, emptyState)
  else
    let ids := store.map (fun e => e.1)
    let titles := store.map (fun e => e.2.1)
    let previews := store.map (fun e => previewOf e.2.2)
    let contents := store.map (fun e => e.2.2)
    match fitTransform idfW contents with
    | Except.error e =>
        (Except.error e,
          { st with document_ids := ids, document_titles := titles,
                    document_previews := previews, vectorizer := some none })
    | Except.ok (fm, mat) =>
        (Except.ok ids.length,
          { vectorizer := some (some fm), matrix := some mat,
            document_ids := ids, document_titles := titles,
            document_previews := previews, is_indexed := true })

/-- `DocumentRetriever.clear_index`. -/
def clear_index (_st : RetrieverState) : RetrieverState := emptyState

/-- `DocumentRetriever.document_count`. -/
def document_count (st : RetrieverState) : ℕ := st.document_ids.length

/-- `DocumentRetriever.is_indexed`. -/
def is_indexed (st : RetrieverState) : Bool := st.is_indexed

/-- The similarity vector of a query against the indexed matrix:
`cosine_similarity(question_vector, self._tfidf_matrix).flatten()`. -/
def simsOf (st : RetrieverState) (fm : FittedModel) (question : String) : List ℚ :=
  (st.matrix.getD []).map (fun dv => cosSq (transform fm question) dv)

/-- The ranking/filter tail of `find_relevant`: take the first `top_k` of
the descending ranking, then keep those passing the `min_score` test. -/
def rankResults (st : RetrieverState) (s : List ℚ) (top_k : ℕ) (min_score : ℚ) :
    List RetrievalResult :=
  ((rankDesc s).take top_k).filterMap (fun i =>
    if passesMin min_score (sGet s i) then
      some { document_id := st.document_ids.getD i 0,
             title := st.document_titles.getD i "",
             score := sGet s i,
             content_preview := st.document_previews.getD i "" }
    else none)

/-- The post-build part of `find_relevant` (everything after the lazy
rebuild): the not-indexed early return, the transform (which raises
NotFittedError on an unfitted vectorizer and AttributeError on `None`),
ranking, thresholding and truncation. -/
def queryIndexed (st : RetrieverState) (question : String) (top_k : ℕ) (min_score : ℚ) :
    Except String (List RetrievalResult) × RetrieverState :=
  if st.is_indexed = false ∨ st.matrix = none then (Except.ok [], st)
  else
    match st.vectorizer with
    | some (some fm) =>
        (Except.ok (rankResults st (simsOf st fm question) top_k min_score), st)
    | some none => (Except.error "NotFittedError", st)
    | none => (Except.error "AttributeError", st)

/-- The lazy-rebuild guard opening `find_relevant`:
`if not self._is_indexed or self._vectorizer is None: self.index_documents()`.
Returns the (possibly propagating) build outcome and the state it leaves. -/
def buildOf (idfW : ℕ → ℕ → ℚ) (store : Store) (st : RetrieverState) :
    Except String ℕ × RetrieverState :=
  if st.is_indexed = false ∨ st.vectorizer = none
  then index_documents idfW store st else (Except.ok 0, st)

/-- `DocumentRetriever.find_relevant`: lazily rebuild when not indexed or
no vectorizer is present, then query. -/
def find_relevant (idfW : ℕ → ℕ → ℚ) (store : Store) (st : RetrieverState)
    (question : String) (top_k : ℕ) (min_score : ℚ) :
    Except String (List RetrievalResult) × RetrieverState :=
  match buildOf idfW store st with
  | (Except.error e, st1) => (Except.error e, st1)
  | (Except.ok _, st1) => queryIndexed st1 question top_k min_score

/-- Lookup in the dict `{doc.id: doc for doc in documents}`: the *last*
row with the given id wins, as when a Python dict is built by iteration. -/
def dictLookup (rows : List (ℕ × String × String)) (i : ℕ) :
    Option (ℕ × String × String) :=
  rows.foldl (fun acc d => if d.1 = i then some d else acc) none

/-- `DocumentRetriever.find_relevant_documents`: query, then resolve the
ranked ids against the current store (`filter(id__in=doc_ids)` into a
dict), pairing each still-resolvable record with its score and skipping
ids the store no longer has. -/
def find_relevant_documents (idfW : ℕ → ℕ → ℚ) (store : Store) (st : RetrieverState)
    (question : String) (top_k : ℕ) (min_score : ℚ) :
    Except String (List ((ℕ × String × String) × ℚ)) × RetrieverState :=
  match find_relevant idfW store st question top_k min_score with
  | (Except.error e, st1) => (Except.error e, st1)
  | (Except.ok results, st1) =>
    if results.isEmpty then (Except.ok [], st1)
    else
      let doc_ids := results.map (fun r => r.document_id)
      let docs := store.filter (fun d => doc_ids.contains d.1)
      (Except.ok (results.filterMap (fun r =>
        match dictLookup docs r.document_id with
        | some rec => some (rec, r.score)
        | none => none)), st1)

/-- Context assembly of `QAChainService.generate_answer`:
`"[Document: {title}]\n{content}\n"` blocks joined by `"\n---\n"`,
truncated at 4000 characters. -/
def context_of (documents : List ((ℕ × String × String) × ℚ)) : String :=
  let parts := documents.map (fun p =>
    "[Document: " ++ p.1.2.1 ++ "]\n" ++ p.1.2.2 ++ "\n")
  let ctx := String.intercalate "\n---\n" parts
  if 4000 < ctx.length then ctx.take 4000 ++ "...[truncated]" else ctx

/-- `QAChainService._build_prompt`. -/
def build_prompt (question context : String) : String :=
  "Answer the question based only on the following context.\nIf the answer cannot be found in the context, say \"I cannot find the answer in the provided documents.\"\n\nContext:\n"
    ++ context ++ "\n\nQuestion: " ++ question ++ "\n\nAnswer:"

/-- `QAChainService.generate_answer`.  The language-model collaborator is
the opaque `llm : prompt -> Except`, where `Except.error` is the
collaborator raising.  The whole call is `Except`-valued so that a
propagated exception would be visible as `Except.error`; the source wraps
`self._llm.invoke(prompt)` in `try/except` and *returns* an
`"Error generating answer: ..."` string on failure, so the model never
produces `Except.error`. -/
def generate_answer (llm : String → Except String String) (question : String)
    (documents : List ((ℕ × String × String) × ℚ)) : Except String String :=
  if documents.isEmpty then
    Except.ok "No relevant documents found to answer this question."
  else
    match llm (build_prompt question (context_of documents)) with
    | Except.ok r => Except.ok r
    | Except.error e => Except.ok ("Error generating answer: " ++ e)

/-- The fitted model held by the state, when one is held. -/
def fittedOf (st : RetrieverState) : Option FittedModel :=
  match st.vectorizer with
  | some (some fm) => some fm
  | _ => none

/-- The retrieval-index invariant of the spec: `is_indexed` holds exactly
when a fitted vectorizer and a document matrix are present and the three
parallel arrays have identical length equal to the corpus size of the
last build (the matrix row count). -/
def goodState (st : RetrieverState) : Prop :=
  st.is_indexed = true ↔
    ((fittedOf st).isSome = true ∧ st.matrix.isSome = true
      ∧ st.document_titles.length = st.document_ids.length
      ∧ st.document_previews.length = st.document_ids.length
      ∧ (st.matrix.getD []).length = st.document_ids.length)

instance (st : RetrieverState) : Decidable (goodState st) := by
  unfold goodState; infer_instance

/-- The idf weight function used at all concrete inputs below.  It agrees
exactly with scikit-learn's smoothed idf ln((1+N)/(1+df)) + 1 whenever
df = N, which is the case for every vocabulary term of every concrete
corpus in this file (each term occurs in every document). -/
def idfOne : ℕ → ℕ → ℚ := fun _ _ => 1

/-- One-document corpus. -/
def store1 : Store := [(1, "T", "machine learning")]

/-- Two documents with identical content: every query ties their scores. -/
def store2 : Store := [(1, "A", "machine learning"), (2, "B", "machine learning")]

/-- A non-empty corpus made only of stop words: fitting raises. -/
def storeStop : Store := [(1, "T", "the"), (2, "U", "of")]

/-- State after a successful build over `store1`. -/
def stGood1 : RetrieverState := (index_documents idfOne store1 emptyState).2

/-- State after a successful build over `store2`. -/
def built2 : RetrieverState := (index_documents idfOne store2 emptyState).2

/-- A failing language-model collaborator. -/
def llmFail : String → Except String String := fun _ => Except.error "boom"

/-- A one-element ranked-documents list for exercising `generate_answer`. -/
def docs1 : List ((ℕ × String × String) × ℚ) := [((1, "T", "c"), 1)]

/-- The retrieval result `store2`'s first document yields on the query
`"machine learning"`. -/
def resA : RetrievalResult :=
  { document_id := 1, title := "A", score := 1,
    content_preview := "machine learning" }

/-- The retrieval result `store2`'s second document yields on the query
`"machine learning"`. -/
def resB : RetrievalResult :=
  { document_id := 2, title := "B", score := 1,
    content_preview := "machine learning" }

/-! ### Generic list lemmas -/

/-- `filterMap` by a pointwise-stronger function yields a sub-sequence. -/
theorem filterMap_sublist_of_imp {α β : Type} (f g : α → Option β)
    (h : ∀ a b, f a = some b → g a = some b) :
    ∀ l : List α, (l.filterMap f).Sublist (l.filterMap g)
  | [] => by simp
  | a :: l => by
    rcases hfa : f a with _ | b
    · rcases hga : g a with _ | c
      · simpa [List.filterMap_cons, hfa, hga] using filterMap_sublist_of_imp f g h l
      · simp only [List.filterMap_cons, hfa, hga]
        exact (filterMap_sublist_of_imp f g h l).trans (List.sublist_cons_self c _)
    · have hga := h a b hfa
      simp only [List.filterMap_cons, hfa, hga]
      exact List.Sublist.cons₂ b (filterMap_sublist_of_imp f g h l)

/-- A `getD` with default 0 stays below any bound that dominates the list
elements and 0. -/
theorem getD_le_of_forall_le {c : ℚ} (h0 : 0 ≤ c) :
    ∀ (s : List ℚ) (i : ℕ), (∀ x ∈ s, x ≤ c) → s.getD i 0 ≤ c
  | [], _, _ => by simpa
  | a :: s, 0, h => h a (by simp)
  | a :: s, i + 1, h => by
    simpa using getD_le_of_forall_le h0 s i (fun x hx => h x (List.mem_cons_of_mem a hx))

/-! ### Inner-product lemmas: the squared-cosine representation -/

theorem dot_self_nonneg : ∀ v : List ℚ, 0 ≤ dot v v
  | [] => le_refl 0
  | a :: v => by
    have h := dot_self_nonneg v
    simp only [dot, List.zip_cons_cons, List.map_cons, List.sum_cons] at *
    nlinarith [sq_nonneg a]

theorem dot_cons_cons (a b : ℚ) (v w : List ℚ) :
    dot (a :: v) (b :: w) = a * b + dot v w := by
  simp [dot]

theorem normSq_eq_zero_forall :
    ∀ v : List ℚ, normSq v = 0 → ∀ x ∈ v, x = 0
  | [], _, x, hx => by simp at hx
  | a :: v, h, x, hx => by
    rw [normSq, dot_cons_cons] at h
    have hv := dot_self_nonneg v
    have ha : a * a = 0 := by nlinarith [sq_nonneg a]
    rcases List.mem_cons.mp hx with rfl | hx
    · nlinarith
    · exact normSq_eq_zero_forall v (by rw [normSq]; nlinarith) x hx

theorem dot_eq_zero_of_left_zero :
    ∀ v w : List ℚ, (∀ x ∈ v, x = 0) → dot v w = 0
  | [], w, _ => by simp [dot]
  | a :: v, [], _ => by simp [dot]
  | a :: v, b :: w, h => by
    rw [dot_cons_cons, h a (by simp),
      dot_eq_zero_of_left_zero v w (fun x hx => h x (List.mem_cons_of_mem a hx))]
    ring

/-- Cauchy–Schwarz over the zipped part of two rational vectors. -/
theorem list_cauchy_schwarz :
    ∀ ps : List (ℚ × ℚ),
      ((ps.map (fun p => p.1 * p.2)).sum) ^ 2 ≤
        (ps.map (fun p => p.1 ^ 2)).sum * (ps.map (fun p => p.2 ^ 2)).sum
  | [] => by simp
  | p :: ps => by
    have ih := list_cauchy_schwarz ps
    have hA : 0 ≤ (ps.map (fun p => p.1 ^ 2)).sum := by
      apply List.sum_nonneg; intro x hx
      rcases List.mem_map.mp hx with ⟨q, _, rfl⟩; positivity
    have hB : 0 ≤ (ps.map (fun p => p.2 ^ 2)).sum := by
      apply List.sum_nonneg; intro x hx
      rcases List.mem_map.mp hx with ⟨q, _, rfl⟩; positivity
    simp only [List.map_cons, List.sum_cons]
    set a := p.1
    set b := p.2
    set S := (ps.map (fun p => p.1 * p.2)).sum
    set A := (ps.map (fun p => p.1 ^ 2)).sum
    set B := (ps.map (fun p => p.2 ^ 2)).sum
    have h4 : (a ^ 2 * B + b ^ 2 * A) ^ 2 ≥ (2 * a * b * S) ^ 2 := by
      nlinarith [sq_nonneg (a ^ 2 * B - b ^ 2 * A), sq_nonneg (a * b), mul_nonneg hA hB]
    have h5 : 0 ≤ a ^ 2 * B + b ^ 2 * A := by positivity
    have h6 : 2 * a * b * S ≤ a ^ 2 * B + b ^ 2 * A := by nlinarith [h4, h5]
    nlinarith [ih, h6]

theorem zip_fst_sq_sum_le :
    ∀ v w : List ℚ, ((v.zip w).map (fun p => p.1 ^ 2)).sum ≤ normSq v
  | [], w => by simp [normSq, dot]
  | a :: v, [] => by
    simpa [normSq] using dot_self_nonneg (a :: v)
  | a :: v, b :: w => by
    have ih := zip_fst_sq_sum_le v w
    simp only [List.zip_cons_cons, List.map_cons, List.sum_cons, normSq, dot_cons_cons] at *
    nlinarith [ih]

theorem zip_snd_sq_sum_le :
    ∀ v w : List ℚ, ((v.zip w).map (fun p => p.2 ^ 2)).sum ≤ normSq w
  | [], w => by
    simpa [normSq] using dot_self_nonneg w
  | a :: v, [] => by simp [normSq, dot]
  | a :: v, b :: w => by
    have ih := zip_snd_sq_sum_le v w
    simp only [List.zip_cons_cons, List.map_cons, List.sum_cons, normSq, dot_cons_cons] at *
    nlinarith [ih]

/-- Squared cosine similarity never exceeds 1 (Cauchy–Schwarz). -/
theorem cosSq_le_one (q d : List ℚ) : cosSq q d ≤ 1 := by
  unfold cosSq
  by_cases h : dot q d = 0
  · simp [h]
  · simp only [h, if_false]
    have hq : 0 < normSq q := by
      rcases lt_or_eq_of_le (dot_self_nonneg q) with hlt | heq
      · exact hlt
      · exact absurd (dot_eq_zero_of_left_zero q d (normSq_eq_zero_forall q heq.symm)) h
    have hd : 0 < normSq d := by
      rcases lt_or_eq_of_le (dot_self_nonneg d) with hlt | heq
      · exact hlt
      · refine absurd ?_ h
        have hzip : ∀ p ∈ q.zip d, p.1 * p.2 = 0 := by
          intro p hp
          have hmem := List.of_mem_zip hp
          rw [normSq_eq_zero_forall d heq.symm p.2 hmem.2]
          ring
        unfold dot
        exact List.sum_eq_zero (fun x hx => by
          rcases List.mem_map.mp hx with ⟨p, hp, rfl⟩; exact hzip p hp)
    rw [div_le_one (by positivity)]
    calc (dot q d) ^ 2
        ≤ ((q.zip d).map (fun p => p.1 ^ 2)).sum * ((q.zip d).map (fun p => p.2 ^ 2)).sum :=
          list_cauchy_schwarz (q.zip d)
      _ ≤ normSq q * normSq d := by
          have h1 := zip_fst_sq_sum_le q d
          have h2 := zip_snd_sq_sum_le q d
          have h3 : 0 ≤ ((q.zip d).map (fun p => p.2 ^ 2)).sum := by
            apply List.sum_nonneg; intro x hx
            rcases List.mem_map.mp hx with ⟨p, _, rfl⟩; positivity
          nlinarith [h1, h2, h3, hq.le]

/-- Squared cosine similarity is nonnegative. -/
theorem cosSq_nonneg (q d : List ℚ) : 0 ≤ cosSq q d := by
  unfold cosSq
  by_cases h : dot q d = 0
  · simp [h]
  · simp only [h, if_false]
    have hq := dot_self_nonneg q
    have hd := dot_self_nonneg d
    positivity

/-! ### Ranking lemmas -/

/-- The descending ranking is a permutation of all ordinals: a full
ranking of the indexed documents. -/
theorem rankDesc_perm (s : List ℚ) : (rankDesc s).Perm (List.range s.length) :=
  (List.reverse_perm _).trans (List.perm_insertionSort (lexLe s) _)

theorem rankDesc_nodup (s : List ℚ) : (rankDesc s).Nodup :=
  (rankDesc_perm s).nodup_iff.mpr (List.nodup_range _)

/-- Successive ranked ordinals are ordered by the flipped stable key. -/
theorem rankDesc_pairwise (s : List ℚ) :
    List.Pairwise (fun a b => lexLe s b a) (rankDesc s) := by
  have h := List.sorted_insertionSort (lexLe s) (List.range s.length)
  exact (List.pairwise_reverse).mpr h

/-- In the descending ranking, an earlier ordinal strictly dominates a
later one: larger score, or equal score and larger original index. -/
theorem rankDesc_strict (s : List ℚ) :
    List.Pairwise
      (fun a b => sGet s b < sGet s a ∨ (sGet s a = sGet s b ∧ b < a))
      (rankDesc s) := by
  have h := (rankDesc_pairwise s).and (rankDesc_nodup s)
  refine h.imp ?_
  rintro a b ⟨hle, hne⟩
  rcases hle with hlt | ⟨heq, hba⟩
  · exact Or.inl hlt
  · exact Or.inr ⟨heq.symm, lt_of_le_of_ne hba (fun hba' => hne hba'.symm)⟩

/-- A flipped-key step weakly orders the scores. -/
theorem score_le_of_lexLe {s : List ℚ} {a b : ℕ} (h : lexLe s b a) :
    sGet s b ≤ sGet s a := by
  rcases h with hlt | ⟨heq, _⟩
  · exact hlt.le
  · exact heq.le

/-! ### Threshold lemmas -/

theorem passesMin_of_nonpos {m : ℚ} (h : m ≤ 0) (x : ℚ) : passesMin m x = true := by
  simp [passesMin, h]

theorem passesMin_mono {m1 m2 x : ℚ} (h : m1 ≤ m2) (hp : passesMin m2 x = true) :
    passesMin m1 x = true := by
  by_cases h1 : m1 ≤ 0
  · exact passesMin_of_nonpos h1 x
  · have h2 : ¬ m2 ≤ 0 := fun hc => h1 (h.trans hc)
    have hsq : m1 ^ 2 ≤ m2 ^ 2 :=
      pow_le_pow_left₀ (le_of_lt (lt_of_not_le h1)) h 2
    simp only [passesMin, h1, h2, if_false, decide_eq_true_eq] at hp ⊢
    linarith

theorem passesMin_gt_one {m x : ℚ} (hm : 1 < m) (hx : x ≤ 1) :
    passesMin m x = false := by
  have h0 : ¬ m ≤ 0 := by linarith
  simp only [passesMin, h0, if_false, decide_eq_false_iff_not, not_le]
  nlinarith

/-! ### rankResults lemmas -/

/-- Raising the threshold only removes results. -/
theorem rankResults_sublist (st : RetrieverState) (s : List ℚ) (k : ℕ)
    {m1 m2 : ℚ} (h : m1 ≤ m2) :
    (rankResults st s k m2).Sublist (rankResults st s k m1) := by
  unfold rankResults
  apply filterMap_sublist_of_imp
  intro i r hr
  by_cases hp : passesMin m2 (sGet s i) = true
  · rw [if_pos hp] at hr
    rw [if_pos (passesMin_mono h hp)]
    exact hr
  · rw [if_neg hp] at hr
    exact absurd hr (by simp)

/-- At most `top_k` results are returned. -/
theorem rankResults_length_le (st : RetrieverState) (s : List ℚ) (k : ℕ) (m : ℚ) :
    (rankResults st s k m).length ≤ k := by
  unfold rankResults
  exact (List.length_filterMap_le _ _).trans ((rankDesc s).length_take_le k)

/-- Growing `top_k` appends: the smaller call is a strict prefix of the
larger one, and the appended part is the `filterMap` of the extra ranked
ordinals. -/
theorem rankResults_append (st : RetrieverState) (s : List ℚ) {k1 k2 : ℕ}
    (h : k1 ≤ k2) (m : ℚ) :
    rankResults st s k2 m =
      rankResults st s k1 m ++
        (((rankDesc s).take k2).drop k1).filterMap (fun i =>
          if passesMin m (sGet s i) then
            some { document_id := st.document_ids.getD i 0,
                   title := st.document_titles.getD i "",
                   score := sGet s i,
                   content_preview := st.document_previews.getD i "" }
          else none) := by
  unfold rankResults
  rw [← List.filterMap_append]
  congr 1
  have h1 : List.take k1 (List.take k2 (rankDesc s)) = List.take k1 (rankDesc s) := by
    rw [List.take_take, min_eq_left h]
  conv_lhs => rw [← List.take_append_drop k1 (List.take k2 (rankDesc s))]
  rw [h1]

/-! ### Structural helpers -/

theorem filterMap_congr_fn {α β : Type} (f g : α → Option β) :
    ∀ l : List α, (∀ a ∈ l, f a = g a) → l.filterMap f = l.filterMap g
  | [], _ => rfl
  | a :: l, h => by
    simp only [List.filterMap_cons, h a (by simp)]
    rw [filterMap_congr_fn f g l (fun x hx => h x (List.mem_cons_of_mem a hx))]

theorem take_decompose {α : Type} (l : List α) {k1 k2 : ℕ} (h : k1 ≤ k2) :
    l.take k2 = l.take k1 ++ (l.take k2).drop k1 := by
  conv_lhs => rw [← List.take_append_drop k1 (l.take k2)]
  rw [List.take_take, min_eq_left h]

/-- `queryIndexed` never mutates the state. -/
theorem queryIndexed_state (st : RetrieverState) (q : String) (k : ℕ) (m : ℚ) :
    (queryIndexed st q k m).2 = st := by
  unfold queryIndexed
  split
  · rfl
  · cases hv : st.vectorizer with
    | none => rfl
    | some o => cases o <;> rfl

theorem goodState_emptyState : goodState emptyState := by decide

/-- A failed build from a state that was not indexed leaves a state that
still satisfies the invariant (not indexed, unfitted vectorizer). -/
theorem index_documents_error_state (idfW : ℕ → ℕ → ℚ) (store : Store)
    (st : RetrieverState) (e : String)
    (h : (index_documents idfW store st).1 = Except.error e)
    (hidx : st.is_indexed = false) :
    goodState (index_documents idfW store st).2 := by
  unfold index_documents at *
  by_cases hs : store.isEmpty
  · simp only [hs, if_true] at h
    exact absurd h (by simp)
  · simp only [hs, if_false] at h ⊢
    cases hft : fitTransform idfW (store.map (fun e => e.2.2)) with
    | error e' => simp only [hft, goodState, fittedOf, hidx]; simp
    | ok pr => rw [hft] at h; exact absurd h (by simp)

/-- A successful fit returns one matrix row per corpus document. -/
theorem fitTransform_ok_len (idfW : ℕ → ℕ → ℚ) (contents : List String)
    (fm : FittedModel) (mat : List (List ℚ))
    (h : fitTransform idfW contents = Except.ok (fm, mat)) :
    mat.length = contents.length := by
  unfold fitTransform at h
  by_cases hv : (vocabOf contents).isEmpty
  · simp [hv] at h
  · simp only [hv, Bool.false_eq_true] at h
    simp at h
    rw [← h.2]
    simp

/-- A successful build establishes the invariant, whatever the prior
state was. -/
theorem index_documents_ok_state (idfW : ℕ → ℕ → ℚ) (store : Store)
    (st : RetrieverState) (n : ℕ)
    (h : (index_documents idfW store st).1 = Except.ok n) :
    goodState (index_documents idfW store st).2 := by
  unfold index_documents at *
  by_cases hs : store.isEmpty
  · simp only [hs, if_true]
    exact goodState_emptyState
  · simp only [hs, if_false] at h ⊢
    cases hft : fitTransform idfW (store.map (fun e => e.2.2)) with
    | error e' => rw [hft] at h; exact absurd h (by simp)
    | ok pr =>
      obtain ⟨fm, mat⟩ := pr
      have hlen : mat.length = (store.map (fun e => e.2.2)).length :=
        fitTransform_ok_len idfW _ fm mat hft
      simp only [hft, goodState, fittedOf]
      simp [hlen]

/-- Looking up an id in the id-filtered rows is the same as looking it up
in the whole store, as long as the filter keeps every row with that id. -/
theorem dictLookup_filter_aux (i : ℕ) (p : ℕ × String × String → Bool)
    (hp : ∀ d : ℕ × String × String, d.1 = i → p d = true) :
    ∀ (rows : List (ℕ × String × String)) (acc : Option (ℕ × String × String)),
      (rows.filter p).foldl (fun acc d => if d.1 = i then some d else acc) acc =
        rows.foldl (fun acc d => if d.1 = i then some d else acc) acc
  | [], acc => rfl
  | d :: rows, acc => by
    by_cases hpd : p d = true
    · simp only [List.filter_cons, hpd, if_true, List.foldl_cons]
      exact dictLookup_filter_aux i p hp rows _
    · have hdi : ¬ d.1 = i := fun hdi => hpd (hp d hdi)
      simp only [List.filter_cons, hpd, if_false, List.foldl_cons, hdi]
      exact dictLookup_filter_aux i p hp rows acc

theorem dictLookup_filter (store : Store) (i : ℕ)
    (p : ℕ × String × String → Bool)
    (hp : ∀ d : ℕ × String × String, d.1 = i → p d = true) :
    dictLookup (store.filter p) i = dictLookup store i :=
  dictLookup_filter_aux i p hp store none

/-! ### Claim theorems -/

/-- Claim C1, amended: the similarity ranking step
(`np.argsort(similarities)[::-1]`) produces a full ranking of all indexed
documents — a permutation of all ordinals — ordered strictly descending by
score; but when two documents have equal scores the tie is broken by the
original ordinal index in DESCENDING order (the stable ascending argsort
is reversed whole), not ascending.  The ranking is a pure function of the
similarity vector, so the output is deterministic for identical inputs. -/
theorem C1_ranking (s : List ℚ) :
    (rankDesc s).Perm (List.range s.length) ∧
      List.Pairwise
        (fun a b => sGet s b < sGet s a ∨ (sGet s a = sGet s b ∧ b < a))
        (rankDesc s) :=
  ⟨rankDesc_perm s, rankDesc_strict s⟩

/-- Claim C1, counterexample to the claim as stated: on the two-document
corpus `store2` (identical contents, so both cosine scores are exactly 1,
with the true idf weights equal to 1 since every term occurs in every
document) the query returns ordinal 1 (id 2) *before* ordinal 0 (id 1);
the ranking of the tied similarity vector `[1, 1]` is `[1, 0]`, which
violates the claimed ascending tie-break `i < j`. -/
theorem C1_tie_cex :
    (find_relevant idfOne store2 built2 "machine learning" 3 0).1 =
      Except.ok
        [{ document_id := 2, title := "B", score := 1,
           content_preview := "machine learning" },
         { document_id := 1, title := "A", score := 1,
           content_preview := "machine learning" }]
    ∧ rankDesc [(1 : ℚ), 1] = [1, 0]
    ∧ ¬ List.Pairwise
        (fun a b =>
          sGet [(1 : ℚ), 1] b < sGet [(1 : ℚ), 1] a ∨
            (sGet [(1 : ℚ), 1] a = sGet [(1 : ℚ), 1] b ∧ a < b))
        (rankDesc [(1 : ℚ), 1]) :=
  ⟨by rfl, by decide, by decide⟩

/-- Claim C2: on an empty corpus, `index_documents` returns 0 and leaves
`is_indexed` false, and a subsequent `find_relevant` on any question,
`top_k` and `min_score` returns an empty result list instead of raising. -/
theorem C2_empty_corpus (idfW : ℕ → ℕ → ℚ) (store : Store) (st : RetrieverState)
    (q : String) (k : ℕ) (m : ℚ) (h : store.length = 0) :
    (index_documents idfW store st).1 = Except.ok 0
    ∧ (index_documents idfW store st).2.is_indexed = false
    ∧ (find_relevant idfW store (index_documents idfW store st).2 q k m).1 =
        Except.ok [] := by
  have hnil : store = [] := List.length_eq_zero.mp h
  subst hnil
  exact ⟨rfl, rfl, rfl⟩

/-- Claim C2, witness: the empty store, any question. -/
theorem C2_witness :
    ([] : Store).length = 0
    ∧ ((index_documents idfOne [] emptyState).1 = Except.ok 0
      ∧ (index_documents idfOne [] emptyState).2.is_indexed = false
      ∧ (find_relevant idfOne [] (index_documents idfOne [] emptyState).2
          "any query" 3 0).1 = Except.ok []) :=
  ⟨rfl, C2_empty_corpus idfOne [] emptyState "any query" 3 0 rfl⟩

/-- Claim C10: with an empty retrieved-documents list, `generate_answer`
returns exactly the fixed string, for every question and every
language-model collaborator — including one that always raises, which is
how the embedding expresses that the model is never invoked on this
path. -/
theorem C10_no_documents (llm : String → Except String String) (q : String) :
    generate_answer llm q [] =
      Except.ok "No relevant documents found to answer this question." := rfl

/-- Claim C4, amended: when the language-model collaborator raises inside
`generate_answer`, the exception is caught and MASKED as an ordinary
answer string `"Error generating answer: <message>"` (an `Except.ok`),
not propagated to the caller as a distinguishable failure.  The retrieval
index state is indeed unchanged: `generate_answer` neither receives nor
touches any `RetrieverState`. -/
theorem C4_masked_failure (llm : String → Except String String) (q : String)
    (docs : List ((ℕ × String × String) × ℚ)) (e : String)
    (hne : docs ≠ [])
    (hfail : llm (build_prompt q (context_of docs)) = Except.error e) :
    generate_answer llm q docs = Except.ok ("Error generating answer: " ++ e) := by
  rcases docs with _ | ⟨d, ds⟩
  · exact absurd rfl hne
  · unfold generate_answer
    rw [hfail]
    rfl

/-- Claim C4, witness: a collaborator that raises `"boom"` on a one-element
document list. -/
theorem C4_witness :
    docs1 ≠ [] ∧
      generate_answer llmFail "q" docs1 =
        Except.ok ("Error generating answer: " ++ "boom") :=
  ⟨by decide, C4_masked_failure llmFail "q" docs1 "boom" (by decide) rfl⟩

/-- Claim C4, counterexample to the claim as stated: the collaborator
raises, yet the caller receives `Except.ok` with an ordinary answer
string — no distinguishable failure is propagated. -/
theorem C4_cex :
    llmFail (build_prompt "q" (context_of docs1)) = Except.error "boom"
    ∧ generate_answer llmFail "q" docs1 =
        Except.ok "Error generating answer: boom" :=
  ⟨rfl, rfl⟩

/-- A state satisfying the invariant that triggers the lazy rebuild guard
is necessarily not indexed. -/
theorem guard_not_indexed (st : RetrieverState) (hgood : goodState st)
    (hguard : st.is_indexed = false ∨ st.vectorizer = none) :
    st.is_indexed = false := by
  cases hb : st.is_indexed with
  | false => rfl
  | true =>
    exfalso
    have hsome := (hgood.mp hb).1
    rcases hguard with h | h
    · rw [hb] at h
      exact Bool.noConfusion h
    · rw [fittedOf, h] at hsome
      simp at hsome

/-- Claim C3, amended: `clear_index` always leaves an invariant state;
`index_documents` establishes the invariant from ANY prior state whenever
it returns normally (including the empty corpus, which ends NotIndexed);
and `find_relevant` preserves the invariant, even when its lazy rebuild
raises.  However — contrary to the claim as stated — a build whose
vectorizer fitting fails does NOT always preserve the invariant: from an
already-indexed state it leaves a partial update (see the
counterexample). -/
theorem C3_invariant :
    (∀ st : RetrieverState, goodState (clear_index st))
    ∧ (∀ (idfW : ℕ → ℕ → ℚ) (store : Store) (st : RetrieverState) (n : ℕ),
        (index_documents idfW store st).1 = Except.ok n →
        goodState (index_documents idfW store st).2)
    ∧ (∀ (idfW : ℕ → ℕ → ℚ) (store : Store) (st : RetrieverState)
        (q : String) (k : ℕ) (m : ℚ),
        goodState st → goodState (find_relevant idfW store st q k m).2) := by
  refine ⟨fun st => goodState_emptyState, index_documents_ok_state, ?_⟩
  intro idfW store st q k m hgood
  unfold find_relevant buildOf
  by_cases hguard : st.is_indexed = false ∨ st.vectorizer = none
  · rw [if_pos hguard]
    rcases hP : index_documents idfW store st with ⟨r, st1⟩
    cases r with
    | error e =>
      have h1 : (index_documents idfW store st).1 = Except.error e := by
        rw [hP]
      have := index_documents_error_state idfW store st e h1
        (guard_not_indexed st hgood hguard)
      rw [hP] at this
      simpa using this
    | ok n =>
      have h1 : (index_documents idfW store st).1 = Except.ok n := by
        rw [hP]
      have := index_documents_ok_state idfW store st n h1
      rw [hP] at this
      simpa [queryIndexed_state] using this
  · rw [if_neg hguard]
    simpa [queryIndexed_state] using hgood

/-- Claim C3, counterexample to the claim as stated: rebuild an index that
was successfully built over `store1` against a corpus consisting only of
stop words.  Fitting raises scikit-learn's empty-vocabulary ValueError
*after* the parallel arrays were already overwritten, so the build
propagates the exception and leaves `is_indexed = true` with an unfitted
vectorizer, a stale one-row matrix, and two-element id/title/preview
arrays — a partial update violating the invariant. -/
theorem C3_cex :
    goodState stGood1
    ∧ (index_documents idfOne storeStop stGood1).1 = Except.error emptyVocabMsg
    ∧ ¬ goodState (index_documents idfOne storeStop stGood1).2
    ∧ (index_documents idfOne storeStop stGood1).2.is_indexed = true
    ∧ fittedOf (index_documents idfOne storeStop stGood1).2 = none
    ∧ (index_documents idfOne storeStop stGood1).2.document_ids.length = 2
    ∧ ((index_documents idfOne storeStop stGood1).2.matrix.getD []).length = 1 := by
  refine ⟨by decide, by rfl, by decide, by rfl, by rfl, by rfl, by rfl⟩

/-- Claim C3, witness: a successful build over a one-document corpus and a
query against the resulting state both end in invariant states. -/
theorem C3_witness :
    goodState (index_documents idfOne store1 emptyState).2
    ∧ goodState (find_relevant idfOne store1 stGood1 "machine learning" 3 0).2 :=
  ⟨C3_invariant.2.1 idfOne store1 emptyState 1 (by rfl),
   C3_invariant.2.2 idfOne store1 stGood1 "machine learning" 3 0
     (C3_invariant.2.1 idfOne store1 emptyState 1 (by rfl))⟩

/-- A fitting failure happens exactly when the corpus yields no
vocabulary. -/
theorem fitTransform_error_vocab (idfW : ℕ → ℕ → ℚ) (contents : List String)
    (e : String) (h : fitTransform idfW contents = Except.error e) :
    vocabOf contents = [] := by
  unfold fitTransform at h
  by_cases hv : (vocabOf contents).isEmpty
  · cases hl : vocabOf contents with
    | nil => rfl
    | cons a l =>
      rw [hl] at hv
      exact absurd hv (by simp)
  · simp [hv] at h

/-- Claim C9, amended: for every non-empty corpus ON WHICH FITTING
SUCCEEDS (the extracted vocabulary is non-empty), `index_documents`
returns exactly the corpus size, leaves `is_indexed` true, and
`document_count` equals that same size.  The fitting proviso is forced by
the counterexample: a non-empty corpus of stop words makes the build
raise instead of returning. -/
theorem C9_nonempty_build (idfW : ℕ → ℕ → ℚ) (store : Store) (st : RetrieverState)
    (hne : store ≠ [])
    (hfit : vocabOf (store.map (fun e => e.2.2)) ≠ []) :
    (index_documents idfW store st).1 = Except.ok store.length
    ∧ (index_documents idfW store st).2.is_indexed = true
    ∧ document_count (index_documents idfW store st).2 = store.length := by
  unfold index_documents
  have hs : store.isEmpty = false := by
    rcases store with _ | ⟨d, ds⟩
    · exact absurd rfl hne
    · rfl
  simp only [hs, Bool.false_eq_true, if_false]
  cases hft : fitTransform idfW (store.map (fun e => e.2.2)) with
  | error e =>
    exact absurd (fitTransform_error_vocab idfW _ e hft) hfit
  | ok pr =>
    refine ⟨by simp, rfl, ?_⟩
    unfold document_count
    simp

/-- Claim C9, counterexample to the claim as stated: the non-empty corpus
`[(1, "T", "the")]` consists of a single stop-word document, so fitting
raises the empty-vocabulary ValueError and `index_documents` propagates
it instead of returning the corpus size 1. -/
theorem C9_cex :
    (index_documents idfOne [(1, "T", "the")] emptyState).1 =
      Except.error emptyVocabMsg
    ∧ ¬ (index_documents idfOne [(1, "T", "the")] emptyState).1 = Except.ok 1 := by
  refine ⟨by rfl, ?_⟩
  intro h
  rw [show (index_documents idfOne [(1, "T", "the")] emptyState).1 =
      Except.error emptyVocabMsg from rfl] at h
  exact Except.noConfusion h

/-- Claim C9, witness: the one-document corpus `store1`. -/
theorem C9_witness :
    store1 ≠ [] ∧ vocabOf (store1.map (fun e => e.2.2)) ≠ []
    ∧ ((index_documents idfOne store1 emptyState).1 = Except.ok store1.length
      ∧ (index_documents idfOne store1 emptyState).2.is_indexed = true
      ∧ document_count (index_documents idfOne store1 emptyState).2 = store1.length) :=
  ⟨by decide, by decide,
    C9_nonempty_build idfOne store1 emptyState (by decide) (by decide)⟩

/-- A nonpositive threshold filters exactly like threshold 0 (both pass
everything, scores being nonnegative). -/
theorem rankResults_nonpos (st : RetrieverState) (s : List ℚ) (k : ℕ)
    {m : ℚ} (hm : m ≤ 0) :
    rankResults st s k m = rankResults st s k 0 := by
  unfold rankResults
  apply filterMap_congr_fn
  intro i _
  rw [passesMin_of_nonpos hm, passesMin_of_nonpos (le_refl 0)]

/-- Every similarity in a query's score vector is at most 1. -/
theorem simsOf_le_one (st : RetrieverState) (fm : FittedModel) (q : String) :
    ∀ x ∈ simsOf st fm q, x ≤ 1 := by
  intro x hx
  rcases List.mem_map.mp hx with ⟨dv, _, rfl⟩
  exact cosSq_le_one _ dv

/-- A threshold above 1 filters out everything. -/
theorem rankResults_empty_of_gt_one (st : RetrieverState) (s : List ℚ) (k : ℕ)
    {m : ℚ} (hm : 1 < m) (hs : ∀ x ∈ s, x ≤ 1) :
    rankResults st s k m = [] := by
  unfold rankResults
  rw [List.filterMap_eq_nil_iff]
  intro i _
  have hb : passesMin m (sGet s i) = false :=
    passesMin_gt_one hm
      (show sGet s i ≤ 1 from getD_le_of_forall_le (by norm_num) s i hs)
  simp [hb]

/-- The score a result carries is the similarity of the ordinal it was
built from. -/
theorem score_of_entry {st : RetrieverState} {s : List ℚ} {m : ℚ} {i : ℕ}
    {r : RetrievalResult}
    (h : (if passesMin m (sGet s i) then
        some { document_id := st.document_ids.getD i 0,
               title := st.document_titles.getD i "",
               score := sGet s i,
               content_preview := st.document_previews.getD i "" }
      else none) = some r) :
    r.score = sGet s i := by
  by_cases hp : passesMin m (sGet s i) = true
  · rw [if_pos hp] at h
    injection h with h
    rw [← h]
  · rw [if_neg hp] at h
    exact absurd h (by simp)

/-- Results appended by a larger `top_k` score no higher than any result
already present at the smaller `top_k`. -/
theorem rankResults_append_scores (st : RetrieverState) (s : List ℚ)
    {k1 k2 : ℕ} (hk : k1 ≤ k2) (m : ℚ) :
    ∀ r1 ∈ rankResults st s k1 m,
      ∀ r2 ∈ (rankResults st s k2 m).drop (rankResults st s k1 m).length,
        r2.score ≤ r1.score := by
  intro r1 h1 r2 h2
  rw [rankResults_append st s hk m, List.drop_left] at h2
  unfold rankResults at h1
  rcases List.mem_filterMap.mp h1 with ⟨i1, hi1, hF1⟩
  rcases List.mem_filterMap.mp h2 with ⟨i2, hi2, hF2⟩
  have hs1 : r1.score = sGet s i1 := score_of_entry hF1
  have hs2 : r2.score = sGet s i2 := score_of_entry hF2
  have hpw : List.Pairwise (fun a b => lexLe s b a) ((rankDesc s).take k2) :=
    (rankDesc_pairwise s).sublist ((rankDesc s).take_sublist k2)
  rw [take_decompose (rankDesc s) hk] at hpw
  have hcross := (List.pairwise_append.mp hpw).2.2 i1 hi1 i2 hi2
  rw [hs1, hs2]
  exact score_le_of_lexLe hcross

/-- Claim C5, amended: `find_relevant` never crashes on an out-of-range
`min_score`.  A negative `min_score` behaves exactly like 0.0 (results
and state identical), as claimed.  But a `min_score` above 1 is NOT
clamped to 1.0: the raw comparison is applied, so every result is
filtered out and the call returns an empty list — whereas clamping to 1.0
would keep documents scoring exactly 1 (see the counterexample). -/
theorem C5_min_score_clamping :
    (∀ (idfW : ℕ → ℕ → ℚ) (store : Store) (st : RetrieverState)
      (q : String) (k : ℕ) (m : ℚ), m < 0 →
        find_relevant idfW store st q k m = find_relevant idfW store st q k 0)
    ∧ (∀ (idfW : ℕ → ℕ → ℚ) (store : Store) (st : RetrieverState)
      (q : String) (k : ℕ) (m : ℚ) (l : List RetrievalResult), 1 < m →
        (find_relevant idfW store st q k m).1 = Except.ok l → l = []) := by
  constructor
  · intro idfW store st q k m hm
    unfold find_relevant
    rcases hB : buildOf idfW store st with ⟨r, st1⟩
    cases r with
    | error e => rfl
    | ok n =>
      show queryIndexed st1 q k m = queryIndexed st1 q k 0
      unfold queryIndexed
      by_cases hg : st1.is_indexed = false ∨ st1.matrix = none
      · rw [if_pos hg, if_pos hg]
      · rw [if_neg hg, if_neg hg]
        cases hv : st1.vectorizer with
        | none => rfl
        | some o =>
          cases o with
          | none => rfl
          | some fm =>
            show (Except.ok (rankResults st1 (simsOf st1 fm q) k m), st1) = _
            rw [rankResults_nonpos st1 (simsOf st1 fm q) k hm.le]
  · intro idfW store st q k m l hm hok
    unfold find_relevant at hok
    rcases hB : buildOf idfW store st with ⟨r, st1⟩
    rw [hB] at hok
    cases r with
    | error e => simp at hok
    | ok n =>
      dsimp only at hok
      unfold queryIndexed at hok
      by_cases hg : st1.is_indexed = false ∨ st1.matrix = none
      · rw [if_pos hg] at hok
        simp at hok
        exact hok
      · rw [if_neg hg] at hok
        cases hv : st1.vectorizer with
        | none => rw [hv] at hok; simp at hok
        | some o =>
          cases o with
          | none => rw [hv] at hok; simp at hok
          | some fm =>
            rw [hv] at hok
            simp at hok
            rw [← hok]
            exact rankResults_empty_of_gt_one st1 _ k hm (simsOf_le_one st1 fm q)

/-- Claim C5, counterexample to the claim as stated: on `store2` (both
documents scoring exactly 1 on this query) a `min_score` of 2 returns the
empty list, while the clamped `min_score` of 1.0 returns both documents —
so an above-range threshold does not behave as if clamped to the nearest
bound. -/
theorem C5_cex :
    (find_relevant idfOne store2 built2 "machine learning" 3 2).1 = Except.ok []
    ∧ (find_relevant idfOne store2 built2 "machine learning" 3 1).1 =
        Except.ok
          [{ document_id := 2, title := "B", score := 1,
             content_preview := "machine learning" },
           { document_id := 1, title := "A", score := 1,
             content_preview := "machine learning" }] :=
  ⟨by rfl, by rfl⟩

/-- Claim C5, witness: a negative threshold behaves like 0.0 on `store2`,
and an above-range threshold (2) yields the empty result list. -/
theorem C5_witness :
    ((-1 : ℚ) < 0
      ∧ find_relevant idfOne store2 built2 "machine learning" 3 (-1) =
          find_relevant idfOne store2 built2 "machine learning" 3 0)
    ∧ ((1 : ℚ) < 2 ∧ ([] : List RetrievalResult) = []) :=
  ⟨⟨by norm_num,
    C5_min_score_clamping.1 idfOne store2 built2 "machine learning" 3 (-1) (by norm_num)⟩,
   ⟨by norm_num,
    C5_min_score_clamping.2 idfOne store2 built2 "machine learning" 3 2 [] (by norm_num) (by rfl)⟩⟩

/-- Claim C6: threshold monotonicity.  For the same state, store,
question and `top_k`, raising `min_score` from `m1` to `m2 > m1` yields a
result list that is a subsequence of the lower-threshold result list —
no new document is ever introduced by a higher threshold. -/
theorem C6_threshold_monotone (idfW : ℕ → ℕ → ℚ) (store : Store)
    (st : RetrieverState) (q : String) (k : ℕ) (m1 m2 : ℚ)
    (l1 l2 : List RetrievalResult) (h : m1 < m2)
    (h2 : (find_relevant idfW store st q k m2).1 = Except.ok l2)
    (h1 : (find_relevant idfW store st q k m1).1 = Except.ok l1) :
    l2.Sublist l1 := by
  unfold find_relevant at h1 h2
  rcases hB : buildOf idfW store st with ⟨r, st1⟩
  rw [hB] at h1 h2
  cases r with
  | error e => simp at h1
  | ok n =>
    dsimp only at h1 h2
    unfold queryIndexed at h1 h2
    by_cases hg : st1.is_indexed = false ∨ st1.matrix = none
    · rw [if_pos hg] at h1 h2
      simp at h1 h2
      rw [h1, h2]
    · rw [if_neg hg] at h1 h2
      cases hv : st1.vectorizer with
      | none => rw [hv] at h1; simp at h1
      | some o =>
        cases o with
        | none => rw [hv] at h1; simp at h1
        | some fm =>
          rw [hv] at h1 h2
          simp at h1 h2
          rw [← h1, ← h2]
          exact rankResults_sublist st1 (simsOf st1 fm q) k h.le

/-- Claim C7: top-k law.  The result list never exceeds `top_k` entries,
and growing `top_k` from `k1` to `k2 >= k1` (same threshold) keeps the
smaller call's results as a prefix of the larger call's, only appending
results whose scores are less than or equal to every already-returned
score. -/
theorem C7_topk_law (idfW : ℕ → ℕ → ℚ) (store : Store) (st : RetrieverState)
    (q : String) (m : ℚ) (k1 k2 : ℕ) (l1 l2 : List RetrievalResult)
    (hk : k1 ≤ k2)
    (h1 : (find_relevant idfW store st q k1 m).1 = Except.ok l1)
    (h2 : (find_relevant idfW store st q k2 m).1 = Except.ok l2) :
    l1.length ≤ k1 ∧ l1 <+: l2
      ∧ ∀ r1 ∈ l1, ∀ r2 ∈ l2.drop l1.length, r2.score ≤ r1.score := by
  unfold find_relevant at h1 h2
  rcases hB : buildOf idfW store st with ⟨r, st1⟩
  rw [hB] at h1 h2
  cases r with
  | error e => simp at h1
  | ok n =>
    dsimp only at h1 h2
    unfold queryIndexed at h1 h2
    by_cases hg : st1.is_indexed = false ∨ st1.matrix = none
    · rw [if_pos hg] at h1 h2
      simp at h1 h2
      subst h1
      subst h2
      exact ⟨Nat.zero_le k1, ⟨[], rfl⟩, by simp⟩
    · rw [if_neg hg] at h1 h2
      cases hv : st1.vectorizer with
      | none => rw [hv] at h1; simp at h1
      | some o =>
        cases o with
        | none => rw [hv] at h1; simp at h1
        | some fm =>
          rw [hv] at h1 h2
          simp at h1 h2
          subst h1
          subst h2
          refine ⟨rankResults_length_le st1 _ k1 m, ?_, ?_⟩
          · exact ⟨_, (rankResults_append st1 (simsOf st1 fm q) hk m).symm⟩
          · exact rankResults_append_scores st1 (simsOf st1 fm q) hk m

/-- Claim C6, witness: on `store2`, raising the threshold from 0 to 2
shrinks the result list from both documents to the empty list, a
subsequence. -/
theorem C6_witness :
    (0 : ℚ) < 2
    ∧ ([] : List RetrievalResult).Sublist [resB, resA] :=
  ⟨by norm_num,
   C6_threshold_monotone idfOne store2 built2 "machine learning" 3 0 2
     [resB, resA] [] (by norm_num) (by rfl) (by rfl)⟩

/-- Claim C7, witness: on `store2` with `top_k` 1 and 3, the one-element
result is a prefix of the two-element result and the appended result
scores no higher. -/
theorem C7_witness :
    [resB].length ≤ 1 ∧ [resB] <+: [resB, resA]
    ∧ ∀ r1 ∈ [resB], ∀ r2 ∈ [resB, resA].drop [resB].length,
        r2.score ≤ r1.score :=
  C7_topk_law idfOne store2 built2 "machine learning" 0 1 3
    [resB] [resB, resA] (by norm_num) (by rfl) (by rfl)

/-- Claim C8: resolution safety.  Whenever the ranking succeeds,
`find_relevant_documents` returns (without failing) exactly the ranked
results resolved against the store: each result whose id the store still
has is paired with its record and retrieval score, in rank order, and
each id the store no longer has is silently omitted. -/
theorem C8_resolution (idfW : ℕ → ℕ → ℚ) (store : Store) (st : RetrieverState)
    (q : String) (k : ℕ) (m : ℚ) (results : List RetrievalResult)
    (h : (find_relevant idfW store st q k m).1 = Except.ok results) :
    (find_relevant_documents idfW store st q k m).1 =
      Except.ok (results.filterMap (fun r =>
        match dictLookup store r.document_id with
        | some rec => some (rec, r.score)
        | none => none)) := by
  unfold find_relevant_documents
  have hpair : find_relevant idfW store st q k m =
      (Except.ok results, (find_relevant idfW store st q k m).2) := by
    rw [← h]
  rw [hpair]
  dsimp only
  by_cases hres : results.isEmpty
  · rw [if_pos hres]
    have hnil : results = [] := by
      rcases results with _ | ⟨a, as⟩
      · rfl
      · exact absurd hres (by simp)
    subst hnil
    rfl
  · rw [if_neg hres]
    dsimp only
    congr 1
    apply filterMap_congr_fn
    intro r hr
    have hmem : r.document_id ∈ results.map (fun r => r.document_id) :=
      List.mem_map_of_mem _ hr
    rw [dictLookup_filter store r.document_id _ ?_]
    intro d hd
    rw [hd]
    simpa using hmem

/-- Claim C8, witness: the index built over `store1` still ranks document
1, but the store has meanwhile lost every document (here: the empty
store), so resolution silently omits the id and succeeds with an empty
pairing instead of failing. -/
theorem C8_witness :
    ((find_relevant idfOne [] stGood1 "machine learning" 3 0).1 =
        Except.ok [{ document_id := 1, title := "T", score := 1,
                     content_preview := "machine learning" }])
    ∧ (find_relevant_documents idfOne [] stGood1 "machine learning" 3 0).1 =
        Except.ok [] := by
  refine ⟨by rfl, ?_⟩
  have h := C8_resolution idfOne [] stGood1 "machine learning" 3 0
    [{ document_id := 1, title := "T", score := 1,
       content_preview := "machine learning" }] (by rfl)
  rw [h]
  rfl
